import Mathlib

/-!
Verification of the generic domain-model layer of the ideate-chatgpt-app
repository.  The definitions below are a shallow embedding of

  * `src/ideate-app/mcp/src/config-loader.ts`   (ConfigLoader, DomainConfig)
  * `src/ideate-app/mcp/src/generic-tools.ts`   (fieldToZodSchema, makeApiRequest,
                                                 registerGenericTools)
  * `src/ideate-app/web/src/generic-types.ts`   (shouldShowField, sortEntities)

JavaScript runtime values relevant to the claims are modelled by `Value`
(numbers as rationals, which embed the ordered finite doubles), JSON objects
by association lists with JavaScript record-assignment semantics, and the
effectful pieces (fetch, the filesystem) by explicit environments.
-/

/-- Runtime JavaScript value, restricted to the shapes the claims exercise. -/
inductive Value where
  | str (s : String)
  | num (q : Rat)
  | bool (b : Bool)
  | null
  | undefined
  deriving DecidableEq, Repr

/-- Truthiness of an optional JavaScript boolean (`undefined` is falsy). -/
def jsTruthy : Option Bool → Bool
  | some b => b
  | none => false

/-- Field descriptor, from `FieldConfig` in `config-loader.ts`.  At runtime the
`type` property is whatever string the JSON file supplied (the TypeScript cast
`data as DomainConfig` checks nothing), so it is modelled as `String`. -/
structure FieldConfig where
  key : String
  label : String
  type : String
  required : Option Bool := none
  hidden : Option Bool := none
  showInList : Option Bool := none
  showInDetail : Option Bool := none
  placeholder : Option String := none
  helpText : Option String := none
  min : Option Rat := none
  max : Option Rat := none
  deriving DecidableEq, Repr

/-- Feature flags, from `FeaturesConfig` in `config-loader.ts`. -/
structure FeaturesConfig where
  create : Option Bool := none
  update : Option Bool := none
  delete : Option Bool := none
  archive : Option Bool := none
  search : Option Bool := none
  deriving DecidableEq, Repr

/-- Domain configuration, from `DomainConfig` in `config-loader.ts` (the
presentation-only properties icon, description and branding are omitted; no
claim mentions them). -/
structure DomainConfig where
  domain : String
  label : String
  labelPlural : String
  features : Option FeaturesConfig := none
  fields : List FieldConfig
  deriving DecidableEq, Repr

/-- Optional chaining `config.features?.flag`, yielding `undefined` when
`features` is absent. -/
def featFlag (c : DomainConfig) (sel : FeaturesConfig → Option Bool) : Option Bool :=
  c.features.bind sel

/-! ### Zod schema model (`fieldToZodSchema` and the derived contracts) -/

/-- Base zod validator shapes used by `generic-tools.ts`. -/
inductive ZodType where
  | string
  | number (min : Option Rat) (max : Option Rat)
  | boolean
  | any
  deriving DecidableEq, Repr

/-- A zod schema as built by the tool factory: a base validator, an optional
wrapper, and a description. -/
structure ZodSchema where
  base : ZodType
  optional : Bool := false
  description : Option String := none
  deriving DecidableEq, Repr

/-- Acceptance of a value by a base validator.  `z.number().min(a).max(b)`
accepts a number iff it lies within the inclusive bounds. -/
def ZodType.accepts : ZodType → Value → Bool
  | .string, .str _ => true
  | .string, _ => false
  | .number mn mx, .num q =>
      (match mn with | some a => decide (a ≤ q) | none => true) &&
      (match mx with | some b => decide (q ≤ b) | none => true)
  | .number _ _, _ => false
  | .boolean, .bool _ => true
  | .boolean, _ => false
  | .any, _ => true

/-- Acceptance by a full schema: `.optional()` is union with `undefined`
(a missing object key parses as `undefined`). -/
def ZodSchema.accepts (s : ZodSchema) (v : Value) : Bool :=
  s.base.accepts v || (s.optional && v == .undefined)

/-- Straight translation of `fieldToZodSchema` (`generic-tools.ts` 49-83):
switch on the type token (default branch `z.any()`), `.optional()` unless the
field is required, then `.describe(field.helpText || field.label)`. -/
def fieldToZodSchema (field : FieldConfig) : ZodSchema :=
  let base : ZodType :=
    if field.type = "string" || field.type = "text" then .string
    else if field.type = "number" then .number field.min field.max
    else if field.type = "boolean" then .boolean
    else if field.type = "date" || field.type = "datetime" then .string
    else .any
  let opt : Bool := !jsTruthy field.required
  let description : String :=
    match field.helpText with
    | some s => if s = "" then field.label else s
    | none => field.label
  { base := base, optional := opt, description := some description }

/-! ### The derived input/output contracts (`registerGenericTools` 100-117) -/

/-- JavaScript record assignment `m[k] = v`: replace in place when the key is
bound, append otherwise. -/
def recordInsert (m : List (String × ZodSchema)) (k : String) (v : ZodSchema) :
    List (String × ZodSchema) :=
  if m.any (fun p => p.1 = k) then
    m.map (fun p => if p.1 = k then (k, v) else p)
  else m ++ [(k, v)]

/-- System fields, from `generic-tools.ts` line 108. -/
def systemFields : List String := ["id", "created_date", "updated_date", "archived"]

/-- Initial entity schema: the four system fields, always present and required
in API responses (`generic-tools.ts` 100-106). -/
def entityBase : List (String × ZodSchema) :=
  [("id", { base := .string }),
   ("archived", { base := .boolean }),
   ("created_date", { base := .string }),
   ("updated_date", { base := .string })]

/-- The `config.fields.forEach` loop of `registerGenericTools` (110-117):
non-system fields are added (record assignment) to both the entity schema and
the create schema. -/
def buildSchemas (c : DomainConfig) :
    List (String × ZodSchema) × List (String × ZodSchema) :=
  c.fields.foldl
    (fun acc field =>
      if systemFields.contains field.key then acc
      else
        (recordInsert acc.1 field.key (fieldToZodSchema field),
         recordInsert acc.2 field.key (fieldToZodSchema field)))
    (entityBase, [])

/-- The output entity contract. -/
def entitySchema (c : DomainConfig) : List (String × ZodSchema) :=
  (buildSchemas c).1

/-- The create-tool input contract. -/
def createSchema (c : DomainConfig) : List (String × ZodSchema) :=
  (buildSchemas c).2

/-- The update-tool input contract (`generic-tools.ts` 272-277): a mandatory
described string `id` followed by every create-schema entry made optional. -/
def updateSchema (c : DomainConfig) : List (String × ZodSchema) :=
  ("id", { base := .string,
           description := some ("The ID of the " ++ c.label.toLower ++ " to update") })
    :: (createSchema c).map (fun p => (p.1, { p.2 with optional := true }))

/-- The non-system field entries, in descriptor order: the closed form the
`forEach` loop produces when the descriptor keys are unique. -/
def schemaEntries (fields : List FieldConfig) : List (String × ZodSchema) :=
  (fields.filter (fun f => !systemFields.contains f.key)).map
    (fun f => (f.key, fieldToZodSchema f))

/-! ### Tool registration (`registerGenericTools` 119-436) -/

/-- The seven tool shapes the factory can register; a registered tool is named
by its kind together with the domain slug (for example `create_products`). -/
inductive ToolKind where
  | list
  | get
  | create
  | update
  | delete
  | archive
  | restore
  deriving DecidableEq, Repr

/-- Tools registered by `registerGenericTools`, in registration order: list and
get unconditionally; create, update and delete unless the corresponding flag is
strictly `false`; archive together with restore when the archive flag is
truthy. -/
def registeredTools (c : DomainConfig) : List (ToolKind × String) :=
  [(.list, c.domain), (.get, c.domain)]
    ++ (if featFlag c FeaturesConfig.create ≠ some false then [(.create, c.domain)] else [])
    ++ (if featFlag c FeaturesConfig.update ≠ some false then [(.update, c.domain)] else [])
    ++ (if featFlag c FeaturesConfig.delete ≠ some false then [(.delete, c.domain)] else [])
    ++ (if jsTruthy (featFlag c FeaturesConfig.archive) then
          [(.archive, c.domain), (.restore, c.domain)]
        else [])

/-! ### Backend requests (`makeApiRequest` 24-44) and tool handlers -/

/-- Observable part of a `fetch` response. -/
structure HttpResponse where
  ok : Bool
  status : Nat
  statusText : String
  body : List Value
  deriving DecidableEq, Repr

/-- Straight translation of `makeApiRequest`: a non-ok response throws a plain
`Error` whose message is the interpolated status line; an ok response yields
the parsed body. -/
def makeApiRequest (r : HttpResponse) : Except String (List Value) :=
  if !r.ok then
    .error ("API request failed: " ++ toString r.status ++ " " ++ r.statusText)
  else .ok r.body

/-- Result produced by the list-tool handler (`generic-tools.ts` 146-176):
content text, the structured content, and the echoed filters. -/
structure ListToolResult where
  contentText : String
  items : List Value
  count : Nat
  filterIncludeArchived : Bool
  filterArchivedOnly : Bool
  deriving DecidableEq, Repr

/-- The list-tool handler: defaults the two flags to `false`, requests the
backend list, and returns `structuredContent = { items, count: items.length }`
with the items untouched. -/
def listToolHandler (c : DomainConfig) (includeArchived archivedOnly : Option Bool)
    (r : HttpResponse) : Except String ListToolResult :=
  let inc := includeArchived.getD false
  let arc := archivedOnly.getD false
  match makeApiRequest r with
  | .error e => .error e
  | .ok items =>
      .ok { contentText :=
              "Found " ++ toString items.length ++ " "
                ++ (if arc then "archived " else "") ++ c.labelPlural.toLower,
            items := items,
            count := items.length,
            filterIncludeArchived := inc,
            filterArchivedOnly := arc }

/-- Result produced by the get-tool handler (`generic-tools.ts` 198-217). -/
structure GetToolResult where
  contentText : String
  item : List Value
  deriving DecidableEq, Repr

/-- The get-tool handler: requests `/domain/id` and wraps the item; a failing
response propagates `makeApiRequest`'s thrown error unchanged. -/
def getToolHandler (c : DomainConfig) (id : String) (r : HttpResponse) :
    Except String GetToolResult :=
  match makeApiRequest r with
  | .error e => .error e
  | .ok item =>
      .ok { contentText := "Loaded " ++ c.label.toLower ++ ": " ++ id,
            item := item }

/-! ### ConfigLoader (`config-loader.ts` 50-146) -/

/-- Raw descriptor as parsed from JSON, before the basic validation: every
top-level key may be missing. -/
structure RawConfig where
  domain : Option String := none
  label : Option String := none
  labelPlural : Option String := none
  features : Option FeaturesConfig := none
  fields : Option (List FieldConfig) := none
  deriving DecidableEq, Repr

/-- Mutable state of the `ConfigLoader` singleton: the cached config. -/
structure LoaderState where
  config : Option DomainConfig := none
  deriving DecidableEq, Repr

/-- Environment for `load`: the `DOMAIN_CONFIG` variable, path resolution, and
the filesystem.  A path maps to `none` when no file exists, to `some none`
when the file exists but is not valid JSON, and to `some (some raw)` when it
parses. -/
structure FileSystem where
  envDomainConfig : Option String
  resolve : String → String
  files : String → Option (Option RawConfig)

/-- JavaScript `a || b` on an optional string (the empty string is falsy). -/
def jsOrStr (a b : Option String) : Option String :=
  match a with
  | some s => if s = "" then b else some s
  | none => b

namespace ConfigLoader

/-- Straight translation of `ConfigLoader.load` (68-104).  A cached config is
returned immediately.  Otherwise the path comes from the argument or the
environment; a missing path, missing file, parse failure, or failed basic
validation (`!data.domain || !data.label || !data.labelPlural || !data.fields`,
where the empty string is falsy) yields `null` and leaves the cache empty; on
success the parsed data is cached as-is. -/
def load (st : LoaderState) (fs : FileSystem) (configPath : Option String) :
    Option DomainConfig × LoaderState :=
  match st.config with
  | some c => (some c, st)
  | none =>
      match jsOrStr configPath fs.envDomainConfig with
      | none => (none, st)
      | some p =>
          match fs.files (fs.resolve p) with
          | none => (none, st)
          | some none => (none, st)
          | some (some data) =>
              match data.domain, data.label, data.labelPlural, data.fields with
              | some d, some l, some lp, some flds =>
                  if d = "" || l = "" || lp = "" then (none, st)
                  else
                    (some { domain := d, label := l, labelPlural := lp,
                            features := data.features, fields := flds },
                     { st with
                       config := some { domain := d, label := l, labelPlural := lp,
                                        features := data.features, fields := flds } })
              | _, _, _, _ => (none, st)

/-- `ConfigLoader.getListFields` (132-135): fields whose `showInList` is truthy
and that are not hidden. -/
def getListFields (c : DomainConfig) : List FieldConfig :=
  c.fields.filter (fun f => jsTruthy f.showInList && !jsTruthy f.hidden)

/-- `ConfigLoader.getDetailFields` (140-145): fields whose `showInDetail` is
not strictly `false` and that are not hidden. -/
def getDetailFields (c : DomainConfig) : List FieldConfig :=
  c.fields.filter (fun f => decide (f.showInDetail ≠ some false) && !jsTruthy f.hidden)

end ConfigLoader

/-! ### Web layer (`generic-types.ts`) -/

/-- A stored entity as the web layer sees it: a JavaScript object, modelled as
an association list with unique keys (indexing an absent key gives
`undefined`). -/
def Entity := List (String × Value)

/-- Property access `entity[key]`. -/
def Entity.get (e : Entity) (k : String) : Value :=
  match List.lookup k e with
  | some v => v
  | none => .undefined

/-- The two widget views. -/
inductive View where
  | list
  | detail
  deriving DecidableEq, Repr

/-- Straight translation of `shouldShowField` (`generic-types.ts` 92-98). -/
def shouldShowField (f : FieldConfig) (v : View) : Bool :=
  if jsTruthy f.hidden then false
  else
    match v with
    | .list => f.showInList == some true
    | .detail => !(f.showInDetail == some false)

/-- `getFieldsForView` (`generic-types.ts` 103-108). -/
def getFieldsForView (c : DomainConfig) (v : View) : List FieldConfig :=
  c.fields.filter (fun f => shouldShowField f v)

/-- JavaScript `String(v)` on the modelled values. -/
def jsToString : Value → String
  | .str s => s
  | .num q => toString q
  | .bool b => if b then "true" else "false"
  | .null => "null"
  | .undefined => "undefined"

/-- Model of `String.prototype.localeCompare`: negative, zero or positive
according to the order of the two strings. -/
def localeCompare (a b : String) : Rat :=
  if a < b then -1 else if b < a then 1 else 0

/-- Sort direction (`'asc' | 'desc'`, default `'desc'`). -/
inductive SortOrder where
  | asc
  | desc
  deriving DecidableEq, Repr

/-- The comparator closure passed to `sort` by `sortEntities`
(`generic-types.ts` 186-205): null or undefined sort-key values compare after
anything (decided before the direction flip); otherwise numbers compare by
difference, strings by `localeCompare`, mixed values by the `localeCompare` of
their string forms; `desc` negates the comparison. -/
def sortComparator (sortBy : String) (sortOrder : SortOrder) (a b : Entity) : Rat :=
  let aVal := a.get sortBy
  let bVal := b.get sortBy
  if aVal = .null ∨ aVal = .undefined then 1
  else if bVal = .null ∨ bVal = .undefined then -1
  else
    let comparison : Rat :=
      match aVal, bVal with
      | .num x, .num y => x - y
      | .str x, .str y => localeCompare x y
      | _, _ => localeCompare (jsToString aVal) (jsToString bVal)
    match sortOrder with
    | .desc => -comparison
    | .asc => comparison

/-- `sortEntities` (`generic-types.ts` 181-206): copies the input array and
sorts the copy with `sortComparator`.  `Array.prototype.sort` is modelled as a
stable comparison sort (an element is placed before another exactly when the
comparator does not order it strictly after). -/
def sortEntities (entities : List Entity) (sortBy : String) (sortOrder : SortOrder) :
    List Entity :=
  List.insertionSort (fun a b => sortComparator sortBy sortOrder a b ≤ 0) entities

/-- The entity's sort-key value is null or undefined (`aVal === null ||
aVal === undefined` in the comparator). -/
def sortKeyMissing (sortBy : String) (e : Entity) : Bool :=
  e.get sortBy == Value.null || e.get sortBy == Value.undefined

/-! ### Concrete configurations used by witnesses and counterexamples -/

/-- A descriptor whose field list declares the key "name" twice, the second
time with the unknown type token "martian". -/
def dupDescriptor : RawConfig :=
  { domain := some "products", label := some "Product", labelPlural := some "Products",
    fields := some [{ key := "name", label := "Name", type := "string" },
                    { key := "name", label := "Name again", type := "martian" }] }

/-- A filesystem carrying `dupDescriptor` at "dup.json". -/
def dupFS : FileSystem :=
  { envDomainConfig := none, resolve := fun s => s,
    files := fun p => if p = "dup.json" then some (some dupDescriptor) else none }

/-- The configuration `load` produces from `dupDescriptor`. -/
def dupConfig : DomainConfig :=
  { domain := "products", label := "Product", labelPlural := "Products",
    features := none,
    fields := [{ key := "name", label := "Name", type := "string" },
               { key := "name", label := "Name again", type := "martian" }] }

/-- A concrete two-field configuration exercising C1. -/
def cfgW : DomainConfig :=
  { domain := "products", label := "Product", labelPlural := "Products",
    fields := [{ key := "name", label := "Name", type := "string",
                 required := some true },
               { key := "price", label := "Price", type := "number",
                 min := some 0, max := some 100000 }] }

/-! ### Claims -/

/-- Truthiness of a feature flag read through optional chaining is exactly
explicit `true`. -/
theorem jsTruthy_eq_some_true (o : Option Bool) : jsTruthy o = true ↔ o = some true := by
  cases o with
  | none => simp [jsTruthy]
  | some b => cases b <;> simp [jsTruthy]

/-- C3: operation gating follows the feature-flag defaults.  For every domain
configuration, list and get are always registered; create, update and delete
are registered unless their flag is explicitly `false` (so by default); archive
and restore are registered exactly when the archive flag is explicitly
`true`. -/
theorem C3_operation_gating (c : DomainConfig) :
    (ToolKind.list, c.domain) ∈ registeredTools c ∧
    (ToolKind.get, c.domain) ∈ registeredTools c ∧
    ((ToolKind.create, c.domain) ∈ registeredTools c ↔
      featFlag c FeaturesConfig.create ≠ some false) ∧
    ((ToolKind.update, c.domain) ∈ registeredTools c ↔
      featFlag c FeaturesConfig.update ≠ some false) ∧
    ((ToolKind.delete, c.domain) ∈ registeredTools c ↔
      featFlag c FeaturesConfig.delete ≠ some false) ∧
    ((ToolKind.archive, c.domain) ∈ registeredTools c ↔
      featFlag c FeaturesConfig.archive = some true) ∧
    ((ToolKind.restore, c.domain) ∈ registeredTools c ↔
      featFlag c FeaturesConfig.archive = some true) := by
  rw [show featFlag c FeaturesConfig.archive = some true ↔
        jsTruthy (featFlag c FeaturesConfig.archive) = true from
      (jsTruthy_eq_some_true _).symm]
  unfold registeredTools
  split_ifs <;> simp_all

/-- C10: field visibility is asymmetric between views.  A hidden field is
selected for no view; the list view selects a field exactly when `showInList`
is explicitly `true` (absent means excluded); the detail view selects a field
exactly when `showInDetail` is not explicitly `false` (absent means included).
The `ConfigLoader` projections compute the same selections. -/
theorem C10_field_visibility (f : FieldConfig) (c : DomainConfig) :
    (jsTruthy f.hidden = true → ∀ v, shouldShowField f v = false) ∧
    (shouldShowField f .list = true ↔
      jsTruthy f.hidden = false ∧ f.showInList = some true) ∧
    (shouldShowField f .detail = true ↔
      jsTruthy f.hidden = false ∧ f.showInDetail ≠ some false) ∧
    ConfigLoader.getListFields c = c.fields.filter (fun g => shouldShowField g .list) ∧
    ConfigLoader.getDetailFields c = c.fields.filter (fun g => shouldShowField g .detail) := by
  refine ⟨?_, ?_, ?_, ?_, ?_⟩
  · intro h v
    cases v <;> simp [shouldShowField, h]
  · unfold shouldShowField
    split_ifs with h <;> simp_all
  · unfold shouldShowField
    split_ifs with h <;> simp_all
  · unfold ConfigLoader.getListFields
    refine List.filter_congr ?_
    intro g _
    unfold shouldShowField
    split_ifs with h <;> cases hs : g.showInList <;> simp_all [jsTruthy]
  · unfold ConfigLoader.getDetailFields
    refine List.filter_congr ?_
    intro g _
    unfold shouldShowField
    split_ifs with h <;> cases hs : g.showInDetail <;> simp_all [jsTruthy]

/-- Witness for C10 at a concrete hidden field and a concrete configuration. -/
theorem C10_field_visibility_witness :
    let f : FieldConfig := { key := "secret", label := "Secret", type := "string",
                             hidden := some true, showInList := some true }
    let c : DomainConfig := { domain := "products", label := "Product",
                              labelPlural := "Products", fields := [f] }
    jsTruthy f.hidden = true ∧ shouldShowField f .list = false ∧
      ConfigLoader.getListFields c = [] := by
  intro f c
  exact ⟨rfl, (C10_field_visibility f c).1 rfl .list, rfl⟩

/-- C4: for a number field the derived contract accepts a numeric value
exactly when it lies within the declared inclusive bounds (an absent bound
constrains nothing) and rejects every non-numeric candidate value.  The
`undefined` exclusion in the second part only says that omitting an optional
field is not the submission of a value. -/
theorem C4_number_bounds (f : FieldConfig) (hf : f.type = "number") :
    (∀ x : Rat, (fieldToZodSchema f).accepts (.num x) = true ↔
      (∀ a ∈ f.min, a ≤ x) ∧ (∀ b ∈ f.max, x ≤ b)) ∧
    (∀ v : Value, (∀ x : Rat, v ≠ .num x) → v ≠ .undefined →
      (fieldToZodSchema f).accepts v = false) := by
  constructor
  · intro x
    simp only [fieldToZodSchema, hf, ZodSchema.accepts, ZodType.accepts]
    cases f.min <;> cases f.max <;> simp [Option.mem_def]
  · intro v hnum hundef
    simp only [fieldToZodSchema, hf, ZodSchema.accepts]
    cases v with
    | num q => exact absurd rfl (hnum q)
    | undefined => exact absurd rfl hundef
    | str s => simp [ZodType.accepts]
    | bool b => simp [ZodType.accepts]
    | null => simp [ZodType.accepts]

/-- Witness for C4: a price field bounded by [0, 100000] accepts 25 and
rejects both an out-of-range number and a string. -/
theorem C4_number_bounds_witness :
    let f : FieldConfig := { key := "price", label := "Price", type := "number",
                             required := some true, min := some 0, max := some 100000 }
    (fieldToZodSchema f).accepts (.num 25) = true ∧
      (fieldToZodSchema f).accepts (.str "25") = false := by
  intro f
  constructor
  · exact ((C4_number_bounds f rfl).1 25).mpr
      (by constructor <;> (intro a ha; rw [Option.mem_def, Option.some_inj] at ha; subst ha; norm_num))
  · exact (C4_number_bounds f rfl).2 (.str "25") (fun x h => by cases h) (fun h => by cases h)

/-- C5 counterexample: the claim says a date-typed field rejects any candidate
that does not parse as a calendar date, but the derived contract for date and
datetime fields is plain `z.string()`, so the clearly non-temporal string
"not-a-date" is accepted by a required date field. -/
theorem C5_counterexample :
    (fieldToZodSchema { key := "due", label := "Due", type := "date",
                        required := some true }).accepts (.str "not-a-date") = true := by
  rfl

/-- C5 amended: for date and datetime fields the derived input contract checks
only that the candidate is a string — every string is accepted, temporal
parsing is not performed, and every non-string candidate value is rejected. -/
theorem C5_amended_date_contract (f : FieldConfig)
    (hf : f.type = "date" ∨ f.type = "datetime") :
    (∀ s : String, (fieldToZodSchema f).accepts (.str s) = true) ∧
    (∀ v : Value, (∀ s : String, v ≠ .str s) → v ≠ .undefined →
      (fieldToZodSchema f).accepts v = false) := by
  have hne1 : ¬(f.type = "string" ∨ f.type = "text") := by
    rcases hf with h | h <;> rw [h] <;> simp
  have hne2 : f.type ≠ "number" := by rcases hf with h | h <;> rw [h] <;> simp
  have hne3 : f.type ≠ "boolean" := by rcases hf with h | h <;> rw [h] <;> simp
  have hbase : (fieldToZodSchema f).base = .string := by
    simp only [fieldToZodSchema]
    rcases hf with h | h <;> simp [h]
  constructor
  · intro s
    simp [ZodSchema.accepts, hbase, ZodType.accepts]
  · intro v hstr hundef
    simp only [ZodSchema.accepts, hbase]
    cases v with
    | str s => exact absurd rfl (hstr s)
    | undefined => exact absurd rfl hundef
    | num q => simp [ZodType.accepts]
    | bool b => simp [ZodType.accepts]
    | null => simp [ZodType.accepts]

/-- Witness for the amended C5 at a concrete datetime field. -/
theorem C5_amended_witness :
    let f : FieldConfig := { key := "at", label := "At", type := "datetime",
                             required := some true }
    (fieldToZodSchema f).accepts (.str "whenever") = true ∧
      (fieldToZodSchema f).accepts (.num 3) = false := by
  intro f
  exact ⟨(C5_amended_date_contract f (Or.inr rfl)).1 "whenever",
         (C5_amended_date_contract f (Or.inr rfl)).2 (.num 3)
           (fun s h => by cases h) (fun h => by cases h)⟩

/-- C6: whenever the list tool succeeds, its structured content has shape
items plus count, the count equals the number of items, and the items are the
backend array unchanged and in the same order. -/
theorem C6_list_response_shape (c : DomainConfig) (inc arc : Option Bool)
    (r : HttpResponse) (res : ListToolResult)
    (h : listToolHandler c inc arc r = .ok res) :
    res.items = r.body ∧ res.count = res.items.length := by
  unfold listToolHandler makeApiRequest at h
  by_cases hok : r.ok
  · simp only [hok, Bool.not_true, reduceIte] at h
    cases h
    exact ⟨rfl, rfl⟩
  · simp [Bool.not_eq_true] at hok
    simp [hok] at h

/-- Witness for C6 on a concrete two-element backend response. -/
theorem C6_list_response_shape_witness :
    let c : DomainConfig := { domain := "products", label := "Product",
                              labelPlural := "Products", fields := [] }
    let r : HttpResponse := { ok := true, status := 200, statusText := "OK",
                              body := [.str "a", .str "b"] }
    ∃ res, listToolHandler c none none r = .ok res ∧
      res.items = r.body ∧ res.count = res.items.length := by
  intro c r
  exact ⟨_, rfl, C6_list_response_shape c none none r _ rfl⟩

/-- C7 counterexample: the claim says a failing backend response is surfaced
as a structured taxonomy error with a specific code and never as a raw
transport exception carrying only an opaque status line; but on a 404 the get
tool propagates exactly the raw `Error` thrown by `makeApiRequest`, whose
entire content is the opaque status line. -/
theorem C7_counterexample :
    getToolHandler { domain := "products", label := "Product",
                     labelPlural := "Products", fields := [] } "42"
        { ok := false, status := 404, statusText := "Not Found", body := [] }
      = .error "API request failed: 404 Not Found" := by
  rfl

/-- C7 amended: for every failing backend response, the get and list tools
surface the raw transport exception of `makeApiRequest`, whose message is the
interpolated status line; no taxonomy code is attached and NotFound,
ValidationError and FeatureDisabled responses are not distinguished from any
other failure status. -/
theorem C7_amended_raw_errors (c : DomainConfig) (id : String)
    (inc arc : Option Bool) (r : HttpResponse) (hr : r.ok = false) :
    getToolHandler c id r =
      .error ("API request failed: " ++ toString r.status ++ " " ++ r.statusText) ∧
    listToolHandler c inc arc r =
      .error ("API request failed: " ++ toString r.status ++ " " ++ r.statusText) := by
  constructor <;> simp [getToolHandler, listToolHandler, makeApiRequest, hr]

/-- Witness for the amended C7 at a concrete 500 response. -/
theorem C7_amended_witness :
    getToolHandler { domain := "products", label := "Product",
                     labelPlural := "Products", fields := [] } "9"
        { ok := false, status := 500, statusText := "Internal Server Error", body := [] }
      = .error "API request failed: 500 Internal Server Error" ∧
    listToolHandler { domain := "products", label := "Product",
                      labelPlural := "Products", fields := [] } none none
        { ok := false, status := 500, statusText := "Internal Server Error", body := [] }
      = .error "API request failed: 500 Internal Server Error" := by
  have h := C7_amended_raw_errors
    { domain := "products", label := "Product", labelPlural := "Products", fields := [] }
    "9" none none
    { ok := false, status := 500, statusText := "Internal Server Error", body := [] } rfl
  exact ⟨h.1.trans (by rfl), h.2.trans (by rfl)⟩

/-- C8: once a `load` call has succeeded, every later `load` on the resulting
state returns the identical configuration and leaves the state untouched,
whatever path argument or filesystem the later call sees — the first
successful load wins and the cached schema is never replaced by `load`. -/
theorem C8_load_first_success_wins (st st' : LoaderState) (fs : FileSystem)
    (p : Option String) (c : DomainConfig)
    (h : ConfigLoader.load st fs p = (some c, st')) :
    ∀ (fs' : FileSystem) (p' : Option String),
      ConfigLoader.load st' fs' p' = (some c, st') := by
  intro fs' p'
  have hst : st'.config = some c := by
    unfold ConfigLoader.load at h
    repeat' split at h
    all_goals injection h with h1 h2
    all_goals first
      | exact Option.noConfusion h1
      | (injection h1 with h1; subst h1; subst h2; first | assumption | rfl)
  unfold ConfigLoader.load
  rw [hst]

/-- Witness for C8: a concrete successful load, after which a second load
through a different filesystem and a different path returns the same cached
configuration. -/
theorem C8_load_first_success_wins_witness :
    let raw : RawConfig := { domain := some "products", label := some "Product",
                             labelPlural := some "Products",
                             fields := some [{ key := "name", label := "Name",
                                               type := "string" }] }
    let fsA : FileSystem := { envDomainConfig := none, resolve := fun s => s,
                              files := fun p => if p = "a.json" then some (some raw) else none }
    let other : RawConfig := { domain := some "pets", label := some "Pet",
                               labelPlural := some "Pets", fields := some [] }
    let fsB : FileSystem := { envDomainConfig := none, resolve := fun s => s,
                              files := fun _ => some (some other) }
    let cfg : DomainConfig := { domain := "products", label := "Product",
                                labelPlural := "Products", features := none,
                                fields := [{ key := "name", label := "Name",
                                             type := "string" }] }
    ConfigLoader.load { config := none } fsA (some "a.json") =
        (some cfg, { config := some cfg }) ∧
      ConfigLoader.load { config := some cfg } fsB (some "b.json") =
        (some cfg, { config := some cfg }) := by
  intro raw fsA other fsB cfg
  refine ⟨rfl, ?_⟩
  exact C8_load_first_success_wins { config := none } { config := some cfg }
    fsA (some "a.json") cfg rfl fsB (some "b.json")

/-- C2 counterexample: the claim says a descriptor containing two fields with
the same key, or a field whose type is not one of the six valid tokens, never
loads into a usable DomainSchema; but this descriptor has both flaws and
`load` caches and returns it as a fully usable configuration. -/
theorem C2_counterexample :
    ConfigLoader.load { config := none } dupFS (some "dup.json") =
      (some dupConfig, { config := some dupConfig }) ∧
    dupConfig.fields.map FieldConfig.key = ["name", "name"] ∧
    dupConfig.fields.map FieldConfig.type = ["string", "martian"] :=
  ⟨rfl, rfl, rfl⟩

/-- C2 amended: `load` performs only the basic top-level validation — reading
a parsed descriptor, it succeeds exactly when domain, label and labelPlural
are present and non-empty and a fields array is present, in which case the
descriptor is cached verbatim (duplicate field keys and invalid type tokens
included); every failure, of whatever kind, is the same undifferentiated null
result, so no SchemaError kinds are distinguished. -/
theorem C2_amended_basic_validation (raw : RawConfig) (fs : FileSystem) (p : String)
    (hp : p ≠ "") (hfile : fs.files (fs.resolve p) = some (some raw)) :
    ((ConfigLoader.load { config := none } fs (some p)).1.isSome = true ↔
      (∃ d, raw.domain = some d ∧ d ≠ "") ∧ (∃ l, raw.label = some l ∧ l ≠ "") ∧
      (∃ lp, raw.labelPlural = some lp ∧ lp ≠ "") ∧ (raw.fields).isSome = true) ∧
    (∀ d l lp flds, raw.domain = some d → raw.label = some l →
      raw.labelPlural = some lp → raw.fields = some flds →
      d ≠ "" → l ≠ "" → lp ≠ "" →
      (ConfigLoader.load { config := none } fs (some p)).1 =
        some { domain := d, label := l, labelPlural := lp,
               features := raw.features, fields := flds }) := by
  have hor : jsOrStr (some p) fs.envDomainConfig = some p := by
    simp [jsOrStr, hp]
  constructor
  · cases hd : raw.domain with
    | none => simp [ConfigLoader.load, hor, hfile, hd]
    | some d =>
        cases hl : raw.label with
        | none => simp [ConfigLoader.load, hor, hfile, hd, hl]
        | some l =>
            cases hlp : raw.labelPlural with
            | none => simp [ConfigLoader.load, hor, hfile, hd, hl, hlp]
            | some lp =>
                cases hflds : raw.fields with
                | none => simp [ConfigLoader.load, hor, hfile, hd, hl, hlp, hflds]
                | some flds =>
                    by_cases hde : d = "" <;> by_cases hle : l = "" <;>
                      by_cases hlpe : lp = "" <;>
                      simp [ConfigLoader.load, hor, hfile, hd, hl, hlp, hflds,
                            hde, hle, hlpe]
  · intro d l lp flds hd hl hlp hflds hde hle hlpe
    simp [ConfigLoader.load, hor, hfile, hd, hl, hlp, hflds, hde, hle, hlpe]

/-- Witness for the amended C2: a descriptor missing its label yields null,
and after restoring the label the same descriptor (still with a duplicate
key) loads verbatim. -/
theorem C2_amended_witness :
    (ConfigLoader.load { config := none }
        { envDomainConfig := none, resolve := fun s => s,
          files := fun _ => some (some { domain := some "pets",
                                         fields := some [] }) }
        (some "x.json")).1.isSome = false ∧
    (ConfigLoader.load { config := none } dupFS (some "dup.json")).1 =
      some dupConfig := by
  constructor
  · have h := (C2_amended_basic_validation
      { domain := some "pets", fields := some [] }
      { envDomainConfig := none, resolve := fun s => s,
        files := fun _ => some (some { domain := some "pets", fields := some [] }) }
      "x.json" (by decide) rfl).1
    rw [Bool.eq_false_iff]
    intro hsome
    rcases (h.mp hsome).2.1 with ⟨l, hl, _⟩
    cases hl
  · exact (C2_amended_basic_validation dupDescriptor dupFS "dup.json"
      (by decide) rfl).2 "products" "Product" "Products" dupConfig.fields
      rfl rfl rfl rfl (by decide) (by decide) (by decide)
/-- Record assignment at a fresh key appends. -/
theorem recordInsert_of_not_mem (m : List (String × ZodSchema)) (k : String)
    (v : ZodSchema) (h : ∀ p ∈ m, p.1 ≠ k) :
    recordInsert m k v = m ++ [(k, v)] := by
  unfold recordInsert
  rw [if_neg]
  simp only [List.any_eq_true, decide_eq_true_eq, not_exists]
  intro p hp
  exact h p hp.1 hp.2

/-- The `forEach` loop appends one entry per non-system field to both
accumulators, provided the non-system keys are fresh and mutually unique. -/
theorem buildSchemas_loop (fields : List FieldConfig) (es cs : List (String × ZodSchema))
    (hnd : ((fields.filter (fun f => !systemFields.contains f.key)).map
      FieldConfig.key).Nodup)
    (hes : ∀ f ∈ fields, f.key ∉ systemFields → ∀ p ∈ es, p.1 ≠ f.key)
    (hcs : ∀ f ∈ fields, f.key ∉ systemFields → ∀ p ∈ cs, p.1 ≠ f.key) :
    fields.foldl
      (fun acc field =>
        if systemFields.contains field.key then acc
        else
          (recordInsert acc.1 field.key (fieldToZodSchema field),
           recordInsert acc.2 field.key (fieldToZodSchema field)))
      (es, cs)
      = (es ++ schemaEntries fields, cs ++ schemaEntries fields) := by
  induction fields generalizing es cs with
  | nil => simp [schemaEntries]
  | cons f rest ih =>
      rw [List.foldl_cons]
      by_cases hmem : f.key ∈ systemFields
      · rw [if_pos (by simpa using hmem)]
        have hent : schemaEntries (f :: rest) = schemaEntries rest := by
          simp [schemaEntries, List.filter_cons, hmem]
        rw [hent]
        refine ih es cs ?_ ?_ ?_
        · simpa [List.filter_cons, hmem] using hnd
        · exact fun g hg => hes g (List.mem_cons_of_mem f hg)
        · exact fun g hg => hcs g (List.mem_cons_of_mem f hg)
      · rw [if_neg (by simpa using hmem)]
        have hent : schemaEntries (f :: rest)
            = (f.key, fieldToZodSchema f) :: schemaEntries rest := by
          simp [schemaEntries, List.filter_cons, hmem]
        have hnd2 : f.key ∉ ((rest.filter (fun g => !systemFields.contains g.key)).map
            FieldConfig.key) ∧ ((rest.filter (fun g => !systemFields.contains g.key)).map
            FieldConfig.key).Nodup := by
          have hx : ((f :: rest).filter (fun g => !systemFields.contains g.key)).map
              FieldConfig.key = f.key :: (rest.filter
                (fun g => !systemFields.contains g.key)).map FieldConfig.key := by
            simp [List.filter_cons, hmem]
          rw [hx] at hnd
          exact ⟨(List.nodup_cons.mp hnd).1, (List.nodup_cons.mp hnd).2⟩
        rw [recordInsert_of_not_mem es f.key _ (hes f (List.mem_cons_self f rest) hmem),
            recordInsert_of_not_mem cs f.key _ (hcs f (List.mem_cons_self f rest) hmem)]
        rw [ih (es ++ [(f.key, fieldToZodSchema f)]) (cs ++ [(f.key, fieldToZodSchema f)])
          hnd2.2 ?_ ?_]
        · rw [hent]
          simp
        · intro g hg hgs p hp
          rcases List.mem_append.mp hp with hp | hp
          · exact hes g (List.mem_cons_of_mem f hg) hgs p hp
          · rcases List.mem_singleton.mp hp with rfl
            intro hk
            change f.key = g.key at hk
            apply hnd2.1
            rw [hk]
            exact List.mem_map.mpr ⟨g, List.mem_filter.mpr ⟨hg, by simpa using hgs⟩, rfl⟩
        · intro g hg hgs p hp
          rcases List.mem_append.mp hp with hp | hp
          · exact hcs g (List.mem_cons_of_mem f hg) hgs p hp
          · rcases List.mem_singleton.mp hp with rfl
            intro hk
            change f.key = g.key at hk
            apply hnd2.1
            rw [hk]
            exact List.mem_map.mpr ⟨g, List.mem_filter.mpr ⟨hg, by simpa using hgs⟩, rfl⟩

/-- Closed form of the two derived schemas for a descriptor with unique
field keys. -/
theorem buildSchemas_eq (c : DomainConfig)
    (hnd : (c.fields.map FieldConfig.key).Nodup) :
    buildSchemas c = (entityBase ++ schemaEntries c.fields, schemaEntries c.fields) := by
  have hndf : ((c.fields.filter (fun f => !systemFields.contains f.key)).map
      FieldConfig.key).Nodup :=
    List.Nodup.sublist (List.Sublist.map FieldConfig.key (List.filter_sublist c.fields)) hnd
  have hes : ∀ f ∈ c.fields, f.key ∉ systemFields → ∀ p ∈ entityBase, p.1 ≠ f.key := by
    intro f hf hfs p hp hk
    apply hfs
    rw [← hk]
    simp only [entityBase, List.mem_cons, List.not_mem_nil, or_false] at hp
    rcases hp with rfl | rfl | rfl | rfl <;> simp [systemFields]
  have hcs : ∀ f ∈ c.fields, f.key ∉ systemFields →
      ∀ p ∈ ([] : List (String × ZodSchema)), p.1 ≠ f.key := by
    intro f hf hfs p hp
    exact absurd hp (List.not_mem_nil p)
  unfold buildSchemas
  rw [buildSchemas_loop c.fields entityBase [] hndf hes hcs]
  simp

/-- Looking up a non-system descriptor field in the derived entries finds
exactly its zod schema. -/
theorem lookup_schemaEntries_of_mem (l : List FieldConfig) (f : FieldConfig)
    (hf : f ∈ l) (hfs : f.key ∉ systemFields)
    (hnd : ((l.filter (fun g => !systemFields.contains g.key)).map FieldConfig.key).Nodup) :
    List.lookup f.key (schemaEntries l) = some (fieldToZodSchema f) := by
  induction l with
  | nil => cases hf
  | cons g rest ih =>
      by_cases hg : g.key ∈ systemFields
      · have hent : schemaEntries (g :: rest) = schemaEntries rest := by
          simp [schemaEntries, List.filter_cons, hg]
        rw [hent]
        rcases List.mem_cons.mp hf with rfl | hf2
        · exact absurd hg hfs
        · exact ih hf2 (by simpa [List.filter_cons, hg] using hnd)
      · have hent : schemaEntries (g :: rest)
            = (g.key, fieldToZodSchema g) :: schemaEntries rest := by
          simp [schemaEntries, List.filter_cons, hg]
        rw [hent]
        have hnd2 : g.key ∉ ((rest.filter (fun x => !systemFields.contains x.key)).map
            FieldConfig.key) ∧ ((rest.filter (fun x => !systemFields.contains x.key)).map
            FieldConfig.key).Nodup := by
          have hx : ((g :: rest).filter (fun x => !systemFields.contains x.key)).map
              FieldConfig.key = g.key :: (rest.filter
                (fun x => !systemFields.contains x.key)).map FieldConfig.key := by
            simp [List.filter_cons, hg]
          rw [hx] at hnd
          exact ⟨(List.nodup_cons.mp hnd).1, (List.nodup_cons.mp hnd).2⟩
        rcases List.mem_cons.mp hf with rfl | hf2
        · simp [List.lookup]
        · have hne : (f.key == g.key) = false := by
            refine beq_eq_false_iff_ne.mpr ?_
            intro he
            apply hnd2.1
            rw [← he]
            exact List.mem_map.mpr ⟨f, List.mem_filter.mpr ⟨hf2, by simpa using hfs⟩, rfl⟩
          simp only [List.lookup, hne]
          exact ih hf2 hnd2.2

/-- System keys are absent from the derived non-system entries. -/
theorem lookup_schemaEntries_of_system (l : List FieldConfig) (k : String)
    (hk : k ∈ systemFields) :
    List.lookup k (schemaEntries l) = none := by
  induction l with
  | nil => rfl
  | cons g rest ih =>
      by_cases hg : g.key ∈ systemFields
      · have hent : schemaEntries (g :: rest) = schemaEntries rest := by
          simp [schemaEntries, List.filter_cons, hg]
        rw [hent]
        exact ih
      · have hent : schemaEntries (g :: rest)
            = (g.key, fieldToZodSchema g) :: schemaEntries rest := by
          simp [schemaEntries, List.filter_cons, hg]
        rw [hent]
        have hne : (k == g.key) = false := by
          refine beq_eq_false_iff_ne.mpr ?_
          intro he
          exact hg (he ▸ hk)
        simp only [List.lookup, hne]
        exact ih

/-- Applying `.optional()` entrywise commutes with lookup. -/
theorem lookup_map_optional (k : String) (l : List (String × ZodSchema)) :
    List.lookup k (l.map (fun p => (p.1, { p.2 with optional := true })))
      = (List.lookup k l).map (fun s => { s with optional := true }) := by
  induction l with
  | nil => rfl
  | cons p rest ih =>
      obtain ⟨a, b⟩ := p
      cases hpk : k == a <;> simp only [List.map_cons, List.lookup, hpk, ih]
      rfl

/-- C1: for a domain schema (whose field keys are unique, a DomainSchema
invariant) with update enabled, the create-input contract consists of exactly
the non-system descriptor fields in order, each mandatory iff declared
required; the update-input contract is a mandatory string id followed by the
same fields, every one optional; the system fields id, archived, created_date
and updated_date are writable in neither input contract (id in update-input
only as the identifier) and are all mandatory in the output entity
contract. -/
theorem C1_create_update_contracts (c : DomainConfig)
    (hnd : (c.fields.map FieldConfig.key).Nodup)
    (_hu : featFlag c FeaturesConfig.update ≠ some false) :
    ((createSchema c).map Prod.fst =
      (c.fields.filter (fun f => !systemFields.contains f.key)).map FieldConfig.key) ∧
    (∀ f ∈ c.fields, f.key ∉ systemFields →
      List.lookup f.key (createSchema c) = some (fieldToZodSchema f) ∧
      ((fieldToZodSchema f).optional = false ↔ f.required = some true)) ∧
    ((updateSchema c).head?.map Prod.fst = some "id") ∧
    (∃ s, List.lookup "id" (updateSchema c) = some s ∧
      s.optional = false ∧ s.base = ZodType.string) ∧
    ((updateSchema c).tail.map Prod.fst = (createSchema c).map Prod.fst) ∧
    (∀ p ∈ (updateSchema c).tail, p.2.optional = true) ∧
    (∀ k ∈ systemFields, List.lookup k (createSchema c) = none) ∧
    (∀ k ∈ systemFields, k ≠ "id" → List.lookup k (updateSchema c) = none) ∧
    (∀ k ∈ systemFields, ∃ s, List.lookup k (entitySchema c) = some s ∧
      s.optional = false) := by
  have hcs : createSchema c = schemaEntries c.fields := by
    unfold createSchema
    rw [buildSchemas_eq c hnd]
  have hes : entitySchema c = entityBase ++ schemaEntries c.fields := by
    unfold entitySchema
    rw [buildSchemas_eq c hnd]
  have hndf : ((c.fields.filter (fun f => !systemFields.contains f.key)).map
      FieldConfig.key).Nodup :=
    List.Nodup.sublist (List.Sublist.map FieldConfig.key (List.filter_sublist c.fields)) hnd
  refine ⟨?_, ?_, ?_, ?_, ?_, ?_, ?_, ?_, ?_⟩
  · rw [hcs]
    simp [schemaEntries, List.map_map]
  · intro f hf hfs
    refine ⟨by rw [hcs]; exact lookup_schemaEntries_of_mem c.fields f hf hfs hndf, ?_⟩
    rw [show (fieldToZodSchema f).optional = !jsTruthy f.required from rfl]
    cases hr : f.required with
    | none => simp [jsTruthy]
    | some b => cases b <;> simp [jsTruthy]
  · rfl
  · exact ⟨_, rfl, rfl, rfl⟩
  · show ((createSchema c).map (fun p => (p.1, { p.2 with optional := true }))).map
        Prod.fst = (createSchema c).map Prod.fst
    simp [List.map_map]
  · intro p hp
    replace hp : p ∈ (createSchema c).map (fun p => (p.1, { p.2 with optional := true })) := hp
    rcases List.mem_map.mp hp with ⟨q, hq, rfl⟩
    rfl
  · intro k hk
    rw [hcs]
    exact lookup_schemaEntries_of_system c.fields k hk
  · intro k hk hkid
    have hn : List.lookup k (schemaEntries c.fields) = none :=
      lookup_schemaEntries_of_system c.fields k hk
    have hne : (k == "id") = false := beq_eq_false_iff_ne.mpr hkid
    unfold updateSchema
    simp only [List.lookup, hne]
    rw [lookup_map_optional, hcs, hn]
    rfl
  · intro k hk
    rw [hes]
    have hk4 : k = "id" ∨ k = "created_date" ∨ k = "updated_date" ∨ k = "archived" := by
      simpa [systemFields] using hk
    rcases hk4 with rfl | rfl | rfl | rfl
    · exact ⟨_, rfl, rfl⟩
    · exact ⟨_, rfl, rfl⟩
    · exact ⟨_, rfl, rfl⟩
    · exact ⟨_, rfl, rfl⟩

/-- Witness for C1 on `cfgW`. -/
theorem C1_create_update_contracts_witness :
    ((createSchema cfgW).map Prod.fst = ["name", "price"]) ∧
    ((updateSchema cfgW).tail.map Prod.fst = ["name", "price"]) := by
  have h := C1_create_update_contracts cfgW (by decide) (by decide)
  constructor
  · rw [h.1]
    rfl
  · rw [h.2.2.2.2.1, h.1]
    rfl

/-- A comparator call whose left sort-key value is null or undefined returns
1 before any direction handling. -/
theorem sortComparator_of_missing (k : String) (o : SortOrder) (a b : Entity)
    (ha : sortKeyMissing k a = true) : sortComparator k o a b = 1 := by
  have ha2 : a.get k = Value.null ∨ a.get k = Value.undefined := by
    simpa [sortKeyMissing] using ha
  simp only [sortComparator]
  rw [if_pos ha2]

/-- A comparator call with a present left value and a null-or-undefined right
value returns -1 before any direction handling. -/
theorem sortComparator_of_present_missing (k : String) (o : SortOrder) (a b : Entity)
    (ha : sortKeyMissing k a = false) (hb : sortKeyMissing k b = true) :
    sortComparator k o a b = -1 := by
  have ha2 : ¬(a.get k = Value.null ∨ a.get k = Value.undefined) := by
    simp only [sortKeyMissing, Bool.or_eq_false_iff, beq_eq_false_iff_ne] at ha
    rintro (h | h)
    · exact ha.1 h
    · exact ha.2 h
  have hb2 : b.get k = Value.null ∨ b.get k = Value.undefined := by
    simpa [sortKeyMissing] using hb
  simp only [sortComparator]
  rw [if_neg ha2, if_pos hb2]

/-- Inserting into a list that keeps missing sort keys last preserves that
shape, because the comparator orders a missing key after everything. -/
theorem pairwise_orderedInsert_missingLast (k : String) (o : SortOrder) (a : Entity)
    (l : List Entity)
    (hl : l.Pairwise (fun x y => sortKeyMissing k x = true → sortKeyMissing k y = true)) :
    (l.orderedInsert (fun x y => sortComparator k o x y ≤ 0) a).Pairwise
      (fun x y => sortKeyMissing k x = true → sortKeyMissing k y = true) := by
  induction l with
  | nil => simp
  | cons b t ih =>
      simp only [List.orderedInsert]
      by_cases hr : sortComparator k o a b ≤ 0
      · rw [if_pos hr]
        refine List.Pairwise.cons ?_ hl
        intro y hy hma
        exfalso
        have h1 : sortComparator k o a b = 1 := sortComparator_of_missing k o a b hma
        rw [h1] at hr
        norm_num at hr
      · rw [if_neg hr]
        refine List.Pairwise.cons ?_ (ih (List.Pairwise.of_cons hl))
        intro y hy hmb
        have hma : sortKeyMissing k a = true := by
          by_contra hma
          have hfa : sortKeyMissing k a = false := by
            simpa using hma
          have h1 : sortComparator k o a b = -1 :=
            sortComparator_of_present_missing k o a b hfa hmb
          rw [h1] at hr
          norm_num at hr
        rcases (List.mem_orderedInsert _).mp hy with rfl | hy2
        · exact hma
        · exact (List.pairwise_cons.mp hl).1 y hy2 hmb

/-- The modelled sort keeps every missing-sort-key entity after every entity
with a value. -/
theorem pairwise_insertionSort_missingLast (k : String) (o : SortOrder)
    (l : List Entity) :
    ((l.insertionSort (fun x y => sortComparator k o x y ≤ 0)).Pairwise
      (fun x y => sortKeyMissing k x = true → sortKeyMissing k y = true)) := by
  induction l with
  | nil => simp
  | cons a t ih =>
      simp only [List.insertionSort]
      exact pairwise_orderedInsert_missingLast k o a _ ih

/-- C9: `sortEntities` returns a permutation of its input (no entity added,
dropped or modified; the input list itself is untouched since the source sorts
a spread copy, and the embedding is pure), and entities whose sort-key value
is null or undefined come after all entities with a value, for both ascending
and descending order. -/
theorem C9_sortEntities_properties (entities : List Entity) (sortBy : String)
    (o : SortOrder) :
    (sortEntities entities sortBy o).Perm entities ∧
    (sortEntities entities sortBy o).Pairwise
      (fun x y => sortKeyMissing sortBy x = true → sortKeyMissing sortBy y = true) :=
  ⟨List.perm_insertionSort _ entities,
   pairwise_insertionSort_missingLast sortBy o entities⟩
